import Mathlib

/-!
Verification of the data-preparation and collation logic of `train_speechT5.py`.

Audio samples and spectrogram values are modelled as rationals.  The
real-valued numeric kernels that librosa applies per frame (windowed FFT
magnitude, mel filterbank, dB conversion) are irrational-valued and are
abstracted as parameters of a `MelKernel`; everything that determines the
claims under scrutiny — framing, reflect padding, frame counts, matrix
shapes, composition order, padding/truncation, control flow — is modelled
explicitly from the source.
-/

namespace TrainSpeechT5

/-- A dataset row as consumed by `CustomDataCollator.__call__`: the keys
`input_ids`, `attention_mask` and `labels` (raw waveform) read at lines
16, 17 and 34 of the source. -/
structure Feature where
  input_ids : List Nat
  attention_mask : List Nat
  labels : List ℚ
  deriving Repr, DecidableEq

/-- The per-frame numeric kernels of `librosa.feature.melspectrogram` and
`librosa.power_to_db`, abstracted: `framePower` maps one analysis frame
(2048 samples once framed) to its `n_mels` mel-band powers (it folds in the
Hann window of `win_length=2048`, the FFT of size `n_fft=2048`, and the mel
filterbank for `sr=16000`, `n_mels=80`); `toDb v ref` is the dB conversion
of one power value `v` relative to the reference `ref`.  These kernels are
real-valued; the librosa contract that `framePower` returns exactly 80
values is a hypothesis of the theorems that need it. -/
structure MelKernel where
  framePower : List ℚ → List ℚ
  toDb : ℚ → ℚ → ℚ

/-- `np.pad(xs, n, mode='reflect')` for `n ≤ xs.length - 1`: the boundary
sample is not repeated.  librosa's `center=True` framing applies this with
`n = n_fft // 2` before slicing frames. -/
def reflectPad (n : Nat) (xs : List ℚ) : List ℚ :=
  ((xs.drop 1).take n).reverse ++ xs ++ ((xs.reverse.drop 1).take n)

/-- Number of analysis frames `librosa.util.frame` produces from a padded
signal of length `len`: `1 + (len - frame_length) // hop_length`. -/
def numFrames (len nFft hop : Nat) : Nat :=
  if len < nFft then 0 else (len - nFft) / hop + 1

/-- The analysis frames of a (already padded) signal: frame `i` is the
`nFft`-sample slice starting at `i * hop`. -/
def frames (nFft hop : Nat) (xs : List ℚ) : List (List ℚ) :=
  (List.range (numFrames xs.length nFft hop)).map
    (fun i => (xs.drop (i * hop)).take nFft)

/-- Transpose of a rectangular matrix stored as a list of rows, as numpy's
`.T`: the new row `j` collects entry `j` of every old row.  The column
count is read off the first row, as the shape of a rectangular numpy array
determines it. -/
def transposeMat (m : List (List ℚ)) : List (List ℚ) :=
  (List.range (m.headD []).length).map (fun j => m.map (fun row => row.getD j 0))

/-- `librosa.feature.melspectrogram(y, sr=16000, n_mels=80, n_fft=2048,
hop_length=512, win_length=2048, center=True, pad_mode='reflect')`:
reflect-pad the signal by `n_fft // 2` on both sides, slice it into
`n_fft`-sample frames with hop 512, apply the per-frame kernel, and return
the band-major `(n_mels × n_frames)` matrix (each frame's mel powers form
one column). -/
def melspectrogram (K : MelKernel) (y : List ℚ) : List (List ℚ) :=
  transposeMat ((frames 2048 512 (reflectPad (2048 / 2) y)).map K.framePower)

/-- `np.max` over a 2-D array, used for `ref=np.max` in `power_to_db`
(the source only applies it to non-empty matrices). -/
def matMax (m : List (List ℚ)) : ℚ :=
  match m.flatten with
  | [] => 0
  | x :: xs => xs.foldl max x

/-- `librosa.power_to_db(S, ref=np.max)`: every entry is converted to dB
relative to the matrix's own maximum; elementwise, hence shape preserving. -/
def powerToDb (toDb : ℚ → ℚ → ℚ) (m : List (List ℚ)) : List (List ℚ) :=
  let ref := matMax m
  m.map (fun row => row.map (fun x => toDb x ref))

/-- The collator object: `processor.tokenizer.pad_token_id` is the only
part of the processor the call reads, and `target_length` defaults to 512. -/
structure CustomDataCollator where
  pad_token_id : Nat
  target_length : Nat := 512
  deriving Repr, DecidableEq

/-- Lines 40–44 of the source: truncate the waveform to
`target_audio_length` samples if longer, otherwise zero-pad it at the end
(`np.pad(audio, (0, target - len), mode='constant')`). -/
def fitAudio (targetAudioLength : Nat) (audio : List ℚ) : List ℚ :=
  if audio.length > targetAudioLength then audio.take targetAudioLength
  else audio ++ List.replicate (targetAudioLength - audio.length) 0

/-- Lines 63–68 of the source: truncate the time-major spectrogram to the
first `targetLength` rows if it has more, pad with `np.zeros((k, 80))`
rows if it has fewer. -/
def fitFrames (targetLength : Nat) (mel : List (List ℚ)) : List (List ℚ) :=
  if mel.length > targetLength then mel.take targetLength
  else if mel.length < targetLength then
    mel ++ List.replicate (targetLength - mel.length) (List.replicate 80 0)
  else mel

/-- The body of the per-waveform loop of `CustomDataCollator.__call__`
(lines 38–70), translated statement by statement: fit the audio length to
`target_length * 512`, compute the mel spectrogram, convert to dB relative
to the clip's maximum, transpose to time-major, and fit the frame count to
`target_length`. -/
def melRows (K : MelKernel) (c : CustomDataCollator) (audio : List ℚ) : List (List ℚ) :=
  let target_audio_length := c.target_length * 512
  let audio1 :=
    if audio.length > target_audio_length then audio.take target_audio_length
    else audio ++ List.replicate (target_audio_length - audio.length) 0
  let mel_spec := melspectrogram K audio1
  let mel_spec2 := powerToDb K.toDb mel_spec
  let mel_spec3 := transposeMat mel_spec2
  if mel_spec3.length > c.target_length then mel_spec3.take c.target_length
  else if mel_spec3.length < c.target_length then
    mel_spec3 ++ List.replicate (c.target_length - mel_spec3.length) (List.replicate 80 0)
  else mel_spec3

/-- Python's `max` over a list: raises (here: `none`) on an empty list. -/
def pyMax : List Nat → Option Nat
  | [] => none
  | x :: xs => some (xs.foldl max x)

/-- The dictionary returned by `CustomDataCollator.__call__`; the tensors
are rectangular lists (a ragged list would make `torch.tensor` /
`np.stack` fail, and the padding below makes them rectangular). -/
structure CollatorOutput where
  input_ids : List (List Nat)
  attention_mask : List (List Nat)
  labels : List (List (List ℚ))
  deriving Repr, DecidableEq

/-- `CustomDataCollator.__call__` (lines 14–79): pad every token sequence
with `pad_token_id` and its mask with zeros up to the batch maximum
length, and turn every raw waveform into a fixed-size time-major log-mel
spectrogram.  `max(...)` over an empty batch raises `ValueError`, modelled
by `none`. -/
def callCollator (K : MelKernel) (c : CustomDataCollator) (features : List Feature) :
    Option CollatorOutput :=
  let input_ids := features.map (fun f => f.input_ids)
  let attention_mask := features.map (fun f => f.attention_mask)
  match pyMax (input_ids.map List.length) with
  | none => none
  | some max_length =>
    let padded := (input_ids.zip attention_mask).map (fun p =>
      let padding_length := max_length - p.1.length
      (p.1 ++ List.replicate padding_length c.pad_token_id,
       p.2 ++ List.replicate padding_length 0))
    let speech_arrays := features.map (fun f => f.labels)
    let mel_specs := speech_arrays.map (melRows K c)
    some { input_ids := padded.map Prod.fst,
           attention_mask := padded.map Prod.snd,
           labels := mel_specs }

/-- Peak absolute amplitude of a waveform (what `librosa.util.normalize`
with its default infinity norm divides by). -/
def peakAbs (xs : List ℚ) : ℚ := (xs.map (fun x => |x|)).foldl max 0

/-- `librosa.util.normalize(S)`: divide by the peak absolute amplitude;
when the peak is below threshold (modelled as exactly 0, which for an
all-zero clip is exact) the divisor is replaced by 1 and the clip is
returned unchanged. -/
def normalize (xs : List ℚ) : List ℚ :=
  let m := peakAbs xs
  if m = 0 then xs else xs.map (fun x => x / m)

/-- The file system and audio decoder as `load_audio` observes them:
`exists_ p` is `os.path.exists(p)`, and `load p` is
`librosa.load(p, sr=16000, duration=10.0)` — `none` when it raises an
exception, otherwise the decoded waveform. -/
structure AudioEnv where
  exists_ : String → Bool
  load : String → Option (List ℚ)

/-- `os.path.join(dataset_dir, file_path)` for the relative paths this
script builds. -/
def fullPath (dataset_dir file_path : String) : String :=
  dataset_dir ++ "/" ++ file_path

/-- `load_audio` (lines 81–99): `none` when the file does not exist, when
loading raises, or when the decoded waveform is empty; otherwise the
normalized waveform. -/
def load_audio (env : AudioEnv) (file_path dataset_dir : String) : Option (List ℚ) :=
  let full_path := fullPath dataset_dir file_path
  if env.exists_ full_path then
    match env.load full_path with
    | none => none
    | some speech_array =>
      if speech_array.length > 0 then some (normalize speech_array)
      else none
  else none

/-- One row of the metadata dataframe: the `Audio Path` and `Text`
columns read by `prepare_dataset`. -/
structure Row where
  audioPath : String
  text : String
  deriving Repr, DecidableEq

/-- One processed dataset item as built at lines 118–123. -/
structure Item where
  input_ids : List Nat
  attention_mask : List Nat
  labels : List ℚ
  text : String
  deriving Repr, DecidableEq

/-- The environment `prepare_dataset` runs in: the audio environment plus
the pretrained processor's text tokenization (`return_tensors="pt"`,
`max_length=256`, `truncation=True`), abstracted as a function from the
text to the `(input_ids, attention_mask)` pair of its single sequence. -/
structure ProcEnv extends AudioEnv where
  tokenize : String → List Nat × List Nat

/-- The loop of `prepare_dataset` (lines 103–128): grow `processed_data`
by one item per row whose audio loads, skipping rows whose `load_audio`
returns `None`. -/
def processedData (env : ProcEnv) (dataset_dir : String) (df : List Row) : List Item :=
  df.foldl (fun acc row =>
    match load_audio env.toAudioEnv row.audioPath dataset_dir with
    | some audio =>
      let t := env.tokenize row.text
      acc ++ [{ input_ids := t.1, attention_mask := t.2,
                labels := audio, text := row.text }]
    | none => acc) []

/-- `prepare_dataset` (lines 101–134): raises `ValueError` (modelled as
`Except.error`) when no row was successfully processed, otherwise returns
the dataset built from the processed items (`Dataset.from_list` keeps
their number). -/
def prepare_dataset (env : ProcEnv) (df : List Row) (dataset_dir : String) :
    Except String (List Item) :=
  let processed := processedData env dataset_dir df
  if processed.isEmpty then Except.error "No data was successfully processed"
  else Except.ok processed

/-! ### Shape lemmas for the spectrogram pipeline -/

theorem fitAudio_length (t : Nat) (audio : List ℚ) : (fitAudio t audio).length = t := by
  unfold fitAudio
  split
  · simp
    omega
  · simp
    omega

theorem reflectPad_length_262144 (y : List ℚ) (hy : y.length = 262144) :
    (reflectPad (2048 / 2) y).length = 264192 := by
  simp [reflectPad, hy]

theorem frames_length (nFft hop : Nat) (xs : List ℚ) :
    (frames nFft hop xs).length = numFrames xs.length nFft hop := by
  simp [frames]

theorem transposeMat_length (m : List (List ℚ)) :
    (transposeMat m).length = (m.headD []).length := by
  simp [transposeMat]

theorem transposeMat_row_length (m : List (List ℚ)) :
    ∀ r ∈ transposeMat m, r.length = m.length := by
  intro r hr
  simp only [transposeMat, List.mem_map, List.mem_range] at hr
  obtain ⟨j, hj, rfl⟩ := hr
  simp

theorem powerToDb_length (f : ℚ → ℚ → ℚ) (m : List (List ℚ)) :
    (powerToDb f m).length = m.length := by
  simp [powerToDb]

theorem powerToDb_headD_length (f : ℚ → ℚ → ℚ) (m : List (List ℚ)) :
    ((powerToDb f m).headD []).length = (m.headD []).length := by
  cases m <;> simp [powerToDb]

theorem headD_map {α : Type} (f : α → List ℚ) (l : List α) (hl : l ≠ []) :
    ∃ x ∈ l, (l.map f).headD [] = f x := by
  cases l with
  | nil => exact absurd rfl hl
  | cons a as => exact ⟨a, by simp, rfl⟩

theorem headD_mem (l : List (List ℚ)) (hl : l ≠ []) : l.headD [] ∈ l := by
  cases l with
  | nil => exact absurd rfl hl
  | cons a as => simp

theorem melspectrogram_shape (K : MelKernel)
    (hK : ∀ fr, (K.framePower fr).length = 80)
    (y : List ℚ) (hy : y.length = 262144) :
    (melspectrogram K y).length = 80 ∧ ∀ r ∈ melspectrogram K y, r.length = 513 := by
  have hpad := reflectPad_length_262144 y hy
  have hnum : numFrames 264192 2048 512 = 513 := by norm_num [numFrames]
  have hfr : (frames 2048 512 (reflectPad (2048 / 2) y)).length = 513 := by
    rw [frames_length, hpad, hnum]
  have hne : frames 2048 512 (reflectPad (2048 / 2) y) ≠ [] := by
    intro h
    rw [h] at hfr
    simp at hfr
  constructor
  · rw [melspectrogram, transposeMat_length]
    obtain ⟨x, _, hx⟩ := headD_map K.framePower _ hne
    rw [hx, hK]
  · intro r hr
    have := transposeMat_row_length _ r hr
    rw [this, List.length_map, hfr]

theorem pipeline_shape (K : MelKernel)
    (hK : ∀ fr, (K.framePower fr).length = 80) (audio : List ℚ) :
    (transposeMat (powerToDb K.toDb (melspectrogram K (fitAudio (512 * 512) audio)))).length = 513 ∧
    ∀ r ∈ transposeMat (powerToDb K.toDb (melspectrogram K (fitAudio (512 * 512) audio))),
      r.length = 80 := by
  have hy : (fitAudio (512 * 512) audio).length = 262144 := by
    rw [fitAudio_length]
  obtain ⟨hX, hXrows⟩ := melspectrogram_shape K hK _ hy
  have hXne : melspectrogram K (fitAudio (512 * 512) audio) ≠ [] := by
    intro h
    rw [h] at hX
    simp at hX
  constructor
  · rw [transposeMat_length, powerToDb_headD_length]
    exact hXrows _ (headD_mem _ hXne)
  · intro r hr
    rw [transposeMat_row_length _ r hr, powerToDb_length, hX]

theorem melRows_eq (K : MelKernel) (c : CustomDataCollator) (audio : List ℚ) :
    melRows K c audio =
      fitFrames c.target_length
        (transposeMat (powerToDb K.toDb
          (melspectrogram K (fitAudio (c.target_length * 512) audio)))) := rfl

theorem melRows_shape (K : MelKernel)
    (hK : ∀ fr, (K.framePower fr).length = 80)
    (c : CustomDataCollator) (hc : c.target_length = 512) (audio : List ℚ) :
    (melRows K c audio).length = 512 ∧ ∀ r ∈ melRows K c audio, r.length = 80 := by
  obtain ⟨h3, hrows⟩ := pipeline_shape K hK audio
  rw [melRows_eq, hc]
  rw [fitFrames, if_pos (by rw [h3]; norm_num)]
  constructor
  · rw [List.length_take, h3]
    decide
  · intro r hr
    exact hrows r (List.take_subset _ _ hr)

/-! ### Token padding lemmas -/

theorem pyMax_nonempty (l : List Nat) (hl : l ≠ []) :
    pyMax l = some (l.foldl max 0) := by
  cases l with
  | nil => exact absurd rfl hl
  | cons a as =>
    simp [pyMax]

theorem foldl_max_init_le (l : List Nat) (i : Nat) : i ≤ l.foldl max i := by
  induction l generalizing i with
  | nil => exact le_refl i
  | cons a as ih => exact le_trans (le_max_left i a) (ih (max i a))

theorem mem_le_foldl_max (l : List Nat) (i : Nat) : ∀ x ∈ l, x ≤ l.foldl max i := by
  induction l generalizing i with
  | nil => intro x hx; simp at hx
  | cons a as ih =>
    intro x hx
    rcases List.mem_cons.mp hx with h | h
    · subst h
      exact le_trans (le_max_right i x) (foldl_max_init_le as (max i x))
    · exact ih (max i a) x h

/-- The batch maximum token length, `max(len(ids) for ids in input_ids)`
on a non-empty batch. -/
def batchMaxLen (features : List Feature) : Nat :=
  (features.map (fun f => f.input_ids.length)).foldl max 0

theorem callCollator_eq (K : MelKernel) (c : CustomDataCollator)
    (features : List Feature) (h : features ≠ []) :
    callCollator K c features = some
      { input_ids := features.map (fun f =>
          f.input_ids ++
            List.replicate (batchMaxLen features - f.input_ids.length) c.pad_token_id),
        attention_mask := features.map (fun f =>
          f.attention_mask ++
            List.replicate (batchMaxLen features - f.input_ids.length) 0),
        labels := features.map (fun f => melRows K c f.labels) } := by
  have hne : (features.map (fun f => f.input_ids)).map List.length ≠ [] := by
    simp [h]
  simp only [callCollator]
  rw [pyMax_nonempty _ hne]
  have hmax : ((features.map (fun f => f.input_ids)).map List.length).foldl max 0 =
      batchMaxLen features := by
    rw [List.map_map]
    rfl
  rw [hmax]
  rw [List.zip_map']
  simp [List.map_map]

/-! ### Normalization lemmas -/

theorem foldl_max_init_le_rat (l : List ℚ) (i : ℚ) : i ≤ l.foldl max i := by
  induction l generalizing i with
  | nil => exact le_refl i
  | cons a as ih => exact le_trans (le_max_left i a) (ih (max i a))

theorem peakAbs_nonneg (xs : List ℚ) : 0 ≤ peakAbs xs :=
  foldl_max_init_le_rat _ 0

theorem foldl_max_div (m : ℚ) (hm : 0 < m) (l : List ℚ) (i : ℚ) :
    (l.map (fun x => x / m)).foldl max (i / m) = (l.foldl max i) / m := by
  induction l generalizing i with
  | nil => rfl
  | cons a as ih =>
    have hmax : max (i / m) (a / m) = max i a / m := by
      rcases le_total i a with h | h
      · rw [max_eq_right h, max_eq_right ((div_le_div_iff_of_pos_right hm).mpr h)]
      · rw [max_eq_left h, max_eq_left ((div_le_div_iff_of_pos_right hm).mpr h)]
    simp only [List.map_cons, List.foldl_cons, hmax]
    exact ih (max i a)

theorem peakAbs_div (m : ℚ) (hm : 0 < m) (xs : List ℚ) :
    peakAbs (xs.map (fun x => x / m)) = peakAbs xs / m := by
  unfold peakAbs
  have habs : (xs.map (fun x => x / m)).map (fun x => |x|) =
      (xs.map (fun x => |x|)).map (fun x => x / m) := by
    simp only [List.map_map]
    apply List.map_congr_left
    intro x _
    simp [abs_div, abs_of_pos hm]
  rw [habs]
  have : (0 : ℚ) = 0 / m := by rw [zero_div]
  rw [this, foldl_max_div m hm]
  rw [zero_div]

theorem normalize_peak_one (xs : List ℚ) (hx : peakAbs xs ≠ 0) :
    peakAbs (normalize xs) = 1 := by
  have hpos : 0 < peakAbs xs := lt_of_le_of_ne (peakAbs_nonneg xs) (Ne.symm hx)
  unfold normalize
  rw [if_neg hx, peakAbs_div _ hpos, div_self hx]

/-! ### Dataset preparation lemmas -/

theorem processedData_cons (env : ProcEnv) (dataset_dir : String)
    (row : Row) (df : List Row) :
    processedData env dataset_dir (row :: df) =
      (match load_audio env.toAudioEnv row.audioPath dataset_dir with
       | some audio =>
         let t := env.tokenize row.text
         [{ input_ids := t.1, attention_mask := t.2,
            labels := audio, text := row.text }]
       | none => []) ++ processedData env dataset_dir df := by
  unfold processedData
  have haux : ∀ (df : List Row) (acc : List Item),
      df.foldl (fun acc row =>
        match load_audio env.toAudioEnv row.audioPath dataset_dir with
        | some audio =>
          let t := env.tokenize row.text
          acc ++ [{ input_ids := t.1, attention_mask := t.2,
                    labels := audio, text := row.text }]
        | none => acc) acc =
      acc ++ df.foldl (fun acc row =>
        match load_audio env.toAudioEnv row.audioPath dataset_dir with
        | some audio =>
          let t := env.tokenize row.text
          acc ++ [{ input_ids := t.1, attention_mask := t.2,
                    labels := audio, text := row.text }]
        | none => acc) [] := by
    intro df
    induction df with
    | nil => intro acc; simp
    | cons r rs ih =>
      intro acc
      simp only [List.foldl_cons]
      cases h : load_audio env.toAudioEnv r.audioPath dataset_dir with
      | none =>
        simp only [h]
        exact ih acc
      | some audio =>
        simp only [h]
        rw [ih, ih ([] ++ _)]
        simp
  simp only [List.foldl_cons]
  cases h : load_audio env.toAudioEnv row.audioPath dataset_dir with
  | none => simp only [h]; rw [haux df []]; simp
  | some audio => simp only [h]; rw [haux df ([] ++ _)]; simp

theorem processedData_length (env : ProcEnv) (dataset_dir : String) (df : List Row) :
    (processedData env dataset_dir df).length =
      df.countP (fun r => (load_audio env.toAudioEnv r.audioPath dataset_dir).isSome) := by
  induction df with
  | nil => rfl
  | cons row rows ih =>
    rw [processedData_cons, List.length_append, ih, List.countP_cons]
    cases h : load_audio env.toAudioEnv row.audioPath dataset_dir <;> simp [h, Nat.add_comm]

/-! ### Concrete instances used by the witnesses -/

/-- A concrete kernel satisfying the librosa contract that every frame is
mapped to 80 mel-band values. -/
def K0 : MelKernel := ⟨fun _ => List.replicate 80 0, fun x _ => x⟩

/-- A collator with pad token id 0 and the default target length. -/
def c0 : CustomDataCollator := ⟨0, 512⟩

/-- A one-element batch. -/
def fs0 : List Feature := [⟨[5], [1], []⟩]

/-! ### Claims -/

/-- C2: before spectrogram computation, every waveform is truncated if
longer than `512 * 512 = 262144` samples and zero-padded at the end if
shorter, so that its length is exactly 262144. -/
theorem audio_fit_exact (audio : List ℚ) :
    (fitAudio (512 * 512) audio).length = 262144 ∧
    (262144 < audio.length → fitAudio (512 * 512) audio = audio.take 262144) ∧
    (audio.length ≤ 262144 → fitAudio (512 * 512) audio =
      audio ++ List.replicate (262144 - audio.length) 0) := by
  refine ⟨?_, ?_, ?_⟩
  · rw [fitAudio_length]
  · intro h
    unfold fitAudio
    rw [if_pos (by omega)]
  · intro h
    unfold fitAudio
    rw [if_neg (by omega)]

/-- C2 witness: the empty waveform is zero-padded to exactly 262144
samples. -/
theorem audio_fit_exact_witness :
    (fitAudio (512 * 512) ([] : List ℚ)).length = 262144 ∧
    (262144 < ([] : List ℚ).length → fitAudio (512 * 512) ([] : List ℚ) =
      ([] : List ℚ).take 262144) ∧
    (([] : List ℚ).length ≤ 262144 → fitAudio (512 * 512) ([] : List ℚ) =
      ([] : List ℚ) ++ List.replicate (262144 - ([] : List ℚ).length) 0) :=
  audio_fit_exact []

/-- C4: the frame-adjustment step truncates a time-major spectrogram to
its first 512 rows if it has more than 512 frames, appends all-zero rows
if it has fewer, and the result always has exactly 512 frames. -/
theorem frames_fit_exact (mel : List (List ℚ)) :
    (fitFrames 512 mel).length = 512 ∧
    (512 < mel.length → fitFrames 512 mel = mel.take 512) ∧
    (mel.length < 512 → fitFrames 512 mel =
      mel ++ List.replicate (512 - mel.length) (List.replicate 80 0)) := by
  refine ⟨?_, ?_, ?_⟩
  · unfold fitFrames
    split
    · simp
      omega
    · split
      · simp
        omega
      · omega
  · intro h
    unfold fitFrames
    rw [if_pos h]
  · intro h
    unfold fitFrames
    rw [if_neg (by omega), if_pos h]

/-- C4 witness: an empty spectrogram is padded with 512 all-zero rows. -/
theorem frames_fit_exact_witness :
    (fitFrames 512 ([] : List (List ℚ))).length = 512 ∧
    (512 < ([] : List (List ℚ)).length → fitFrames 512 ([] : List (List ℚ)) =
      ([] : List (List ℚ)).take 512) ∧
    (([] : List (List ℚ)).length < 512 → fitFrames 512 ([] : List (List ℚ)) =
      ([] : List (List ℚ)) ++
        List.replicate (512 - ([] : List (List ℚ)).length) (List.replicate 80 0)) :=
  frames_fit_exact []

/-- C9: the collator fails (the `max` over an empty sequence raises)
exactly on the empty batch. -/
theorem collator_empty_batch (K : MelKernel) (c : CustomDataCollator)
    (features : List Feature) :
    callCollator K c features = none ↔ features = [] := by
  cases features with
  | nil => simp [callCollator, pyMax]
  | cons f fs =>
    rw [callCollator_eq K c _ (by simp)]
    simp

/-- C6: the collator is a function of the kernel, the collator fields and
the feature list alone: two calls with the same pad token id, the same
target length and equal feature lists return equal outputs. -/
theorem collator_deterministic (K : MelKernel) (c c2 : CustomDataCollator)
    (features features2 : List Feature)
    (hpad : c.pad_token_id = c2.pad_token_id)
    (htgt : c.target_length = c2.target_length)
    (hf : features = features2) :
    callCollator K c features = callCollator K c2 features2 := by
  cases c
  cases c2
  simp only at hpad htgt
  subst hpad
  subst htgt
  subst hf
  rfl

/-- C6 witness: two calls on equal concrete inputs agree. -/
theorem collator_deterministic_witness :
    callCollator K0 c0 fs0 = callCollator K0 c0 fs0 :=
  collator_deterministic K0 c0 c0 fs0 fs0 rfl rfl rfl

/-- C3: the labels of the collator output are obtained, clip by clip, by
fitting the waveform to `target_length * 512` samples, taking the power
mel-spectrogram (sr 16000, 80 mel bands, FFT 2048, hop 512, window 2048,
centered, reflect padding), converting to dB relative to the clip maximum,
transposing to time-major, and fitting to `target_length` frames — in
this order. -/
theorem labels_pipeline_order (K : MelKernel) (c : CustomDataCollator)
    (features : List Feature) (hne : features ≠ []) :
    ∀ out, callCollator K c features = some out →
      out.labels = features.map (fun f =>
        fitFrames c.target_length
          (transposeMat (powerToDb K.toDb
            (melspectrogram K (fitAudio (c.target_length * 512) f.labels))))) := by
  intro out hout
  rw [callCollator_eq K c features hne] at hout
  cases hout
  rfl

/-- The collator output on the concrete one-element batch. -/
def out0 : CollatorOutput :=
  { input_ids := [[5]], attention_mask := [[1]], labels := [melRows K0 c0 []] }

/-- C3 witness: on the concrete batch the labels are exactly the composed
pipeline applied to its single waveform. -/
theorem labels_pipeline_order_witness :
    out0.labels = fs0.map (fun f =>
      fitFrames c0.target_length
        (transposeMat (powerToDb K0.toDb
          (melspectrogram K0 (fitAudio (c0.target_length * 512) f.labels))))) :=
  labels_pipeline_order K0 c0 fs0 (by simp [fs0]) out0 rfl

/-- C1: on a non-empty batch the collator returns a result whose labels
tensor has shape `(batch, 512, 80)` and whose `input_ids` and
`attention_mask` tensors have shape `(batch, max_len)`, `max_len` being
the maximum `input_ids` length in the batch. -/
theorem collator_output_shapes (K : MelKernel) (c : CustomDataCollator)
    (features : List Feature)
    (hne : features ≠ [])
    (hc : c.target_length = 512)
    (hK : ∀ fr, (K.framePower fr).length = 80)
    (hmask : ∀ f ∈ features, f.attention_mask.length = f.input_ids.length) :
    ∃ out, callCollator K c features = some out ∧
      out.labels.length = features.length ∧
      (∀ m ∈ out.labels, m.length = 512 ∧ ∀ r ∈ m, r.length = 80) ∧
      out.input_ids.length = features.length ∧
      (∀ r ∈ out.input_ids, r.length = batchMaxLen features) ∧
      out.attention_mask.length = features.length ∧
      (∀ r ∈ out.attention_mask, r.length = batchMaxLen features) := by
  refine ⟨_, callCollator_eq K c features hne, ?_, ?_, ?_, ?_, ?_, ?_⟩
  · simp
  · intro m hm
    simp only [List.mem_map] at hm
    obtain ⟨f, _, rfl⟩ := hm
    exact melRows_shape K hK c hc f.labels
  · simp
  · intro r hr
    simp only [List.mem_map] at hr
    obtain ⟨f, hf, rfl⟩ := hr
    have hle : f.input_ids.length ≤ batchMaxLen features :=
      mem_le_foldl_max _ 0 _ (List.mem_map.mpr ⟨f, hf, rfl⟩)
    simp
    omega
  · simp
  · intro r hr
    simp only [List.mem_map] at hr
    obtain ⟨f, hf, rfl⟩ := hr
    have hle : f.input_ids.length ≤ batchMaxLen features :=
      mem_le_foldl_max _ 0 _ (List.mem_map.mpr ⟨f, hf, rfl⟩)
    have hm := hmask f hf
    simp
    omega

/-- C1 witness: the shape guarantees hold on the concrete one-element
batch. -/
theorem collator_output_shapes_witness :
    ∃ out, callCollator K0 c0 fs0 = some out ∧
      out.labels.length = fs0.length ∧
      (∀ m ∈ out.labels, m.length = 512 ∧ ∀ r ∈ m, r.length = 80) ∧
      out.input_ids.length = fs0.length ∧
      (∀ r ∈ out.input_ids, r.length = batchMaxLen fs0) ∧
      out.attention_mask.length = fs0.length ∧
      (∀ r ∈ out.attention_mask, r.length = batchMaxLen fs0) :=
  collator_output_shapes K0 c0 fs0 (by simp [fs0]) rfl
    (fun fr => by simp [K0]) (by decide)

/-- C5: every token sequence is right-padded with the pad token id up to
the batch maximum `input_ids` length, keeping the original tokens as a
prefix, and its attention mask is right-padded with zeros to the same
length. -/
theorem token_padding_spec (K : MelKernel) (c : CustomDataCollator)
    (features : List Feature)
    (hne : features ≠ [])
    (hmask : ∀ f ∈ features, f.attention_mask.length = f.input_ids.length) :
    ∃ out, callCollator K c features = some out ∧
      out.input_ids = features.map (fun f =>
        f.input_ids ++
          List.replicate (batchMaxLen features - f.input_ids.length) c.pad_token_id) ∧
      out.attention_mask = features.map (fun f =>
        f.attention_mask ++
          List.replicate (batchMaxLen features - f.attention_mask.length) 0) ∧
      (∀ r ∈ out.input_ids, r.length = batchMaxLen features) ∧
      (∀ r ∈ out.attention_mask, r.length = batchMaxLen features) := by
  refine ⟨_, callCollator_eq K c features hne, rfl, ?_, ?_, ?_⟩
  · apply List.map_congr_left
    intro f hf
    rw [hmask f hf]
  · intro r hr
    simp only [List.mem_map] at hr
    obtain ⟨f, hf, rfl⟩ := hr
    have hle : f.input_ids.length ≤ batchMaxLen features :=
      mem_le_foldl_max _ 0 _ (List.mem_map.mpr ⟨f, hf, rfl⟩)
    simp
    omega
  · intro r hr
    simp only [List.mem_map] at hr
    obtain ⟨f, hf, rfl⟩ := hr
    have hle : f.input_ids.length ≤ batchMaxLen features :=
      mem_le_foldl_max _ 0 _ (List.mem_map.mpr ⟨f, hf, rfl⟩)
    have hm := hmask f hf
    simp
    omega

/-- C5 witness: padding on the concrete one-element batch. -/
theorem token_padding_spec_witness :
    ∃ out, callCollator K0 c0 fs0 = some out ∧
      out.input_ids = fs0.map (fun f =>
        f.input_ids ++
          List.replicate (batchMaxLen fs0 - f.input_ids.length) c0.pad_token_id) ∧
      out.attention_mask = fs0.map (fun f =>
        f.attention_mask ++
          List.replicate (batchMaxLen fs0 - f.attention_mask.length) 0) ∧
      (∀ r ∈ out.input_ids, r.length = batchMaxLen fs0) ∧
      (∀ r ∈ out.attention_mask, r.length = batchMaxLen fs0) :=
  token_padding_spec K0 c0 fs0 (by simp [fs0]) (by decide)

/-- An environment in which every path exists and every load returns the
one-sample all-zero waveform. -/
def envZero : AudioEnv := ⟨fun _ => true, fun _ => some [0]⟩

/-- C7 counterexample: the all-zero clip `[0]` exists, loads, and is
non-empty, so `load_audio` returns it — but `librosa.util.normalize`
leaves a clip whose peak is below threshold unchanged, so the returned
waveform has peak absolute amplitude 0, not 1. -/
theorem load_audio_zero_clip :
    envZero.exists_ (fullPath "dataset" "a.wav") = true ∧
    envZero.load (fullPath "dataset" "a.wav") = some [0] ∧
    ([0] : List ℚ) ≠ [] ∧
    load_audio envZero "a.wav" "dataset" = some [0] ∧
    peakAbs (([0] : List ℚ)) = 0 ∧ (0 : ℚ) ≠ 1 := by
  refine ⟨rfl, rfl, by simp, ?_, by decide, by decide⟩
  rfl

/-- C7 (amended): `load_audio` returns `none` exactly when the file does
not exist, loading raises, or the loaded waveform is empty; otherwise it
returns `librosa.util.normalize` of the waveform, whose peak absolute
amplitude is 1 whenever the clip's peak is nonzero; and a row whose
`load_audio` is `None` is skipped by `prepare_dataset`'s loop. -/
theorem load_audio_spec (env : AudioEnv) (fp dir : String) :
    (load_audio env fp dir = none ↔
      env.exists_ (fullPath dir fp) = false ∨
      env.load (fullPath dir fp) = none ∨
      env.load (fullPath dir fp) = some []) ∧
    (∀ a, env.exists_ (fullPath dir fp) = true →
      env.load (fullPath dir fp) = some a → a ≠ [] →
      load_audio env fp dir = some (normalize a)) ∧
    (∀ a : List ℚ, peakAbs a ≠ 0 → peakAbs (normalize a) = 1) ∧
    (∀ (penv : ProcEnv) (row : Row) (df : List Row) (dir2 : String),
      load_audio penv.toAudioEnv row.audioPath dir2 = none →
      processedData penv dir2 (row :: df) = processedData penv dir2 df) := by
  refine ⟨?_, ?_, fun a ha => normalize_peak_one a ha, ?_⟩
  · unfold load_audio
    cases henv : env.exists_ (fullPath dir fp) with
    | false => simp [henv]
    | true =>
      cases hload : env.load (fullPath dir fp) with
      | none => simp [henv, hload]
      | some a =>
        cases a with
        | nil => simp [henv, hload]
        | cons x xs => simp [henv, hload]
  · intro a hex hld hne
    unfold load_audio
    simp only [hex, if_true, hld]
    rw [if_pos (List.length_pos.mpr hne)]
  · intro penv row df dir2 hnone
    rw [processedData_cons, hnone]
    simp

/-- C7 witness: in an environment where the file exists and loads to the
non-empty clip `[2]`, `load_audio` returns the normalized clip, whose
peak is 1. -/
theorem load_audio_spec_witness :
    (load_audio ⟨fun _ => true, fun _ => some [2]⟩ "a.wav" "dataset" = none ↔
      (⟨fun _ => true, fun _ => some [2]⟩ : AudioEnv).exists_
          (fullPath "dataset" "a.wav") = false ∨
      (⟨fun _ => true, fun _ => some [2]⟩ : AudioEnv).load
          (fullPath "dataset" "a.wav") = none ∨
      (⟨fun _ => true, fun _ => some [2]⟩ : AudioEnv).load
          (fullPath "dataset" "a.wav") = some []) ∧
    (∀ a, (⟨fun _ => true, fun _ => some [2]⟩ : AudioEnv).exists_
          (fullPath "dataset" "a.wav") = true →
      (⟨fun _ => true, fun _ => some [2]⟩ : AudioEnv).load
          (fullPath "dataset" "a.wav") = some a → a ≠ [] →
      load_audio ⟨fun _ => true, fun _ => some [2]⟩ "a.wav" "dataset" =
        some (normalize a)) ∧
    (∀ a : List ℚ, peakAbs a ≠ 0 → peakAbs (normalize a) = 1) ∧
    (∀ (penv : ProcEnv) (row : Row) (df : List Row) (dir2 : String),
      load_audio penv.toAudioEnv row.audioPath dir2 = none →
      processedData penv dir2 (row :: df) = processedData penv dir2 df) :=
  load_audio_spec ⟨fun _ => true, fun _ => some [2]⟩ "a.wav" "dataset"

/-- C8: with the default target length, every waveform entering the
spectrogram step has exactly 262144 samples, the time-major spectrogram
always has `1 + 262144 / 512 = 513` frames, and the frame-adjustment step
therefore always takes the truncation branch. -/
theorem spectrogram_513_frames (K : MelKernel)
    (hK : ∀ fr, (K.framePower fr).length = 80) (audio : List ℚ) :
    (fitAudio (512 * 512) audio).length = 262144 ∧
    (transposeMat (powerToDb K.toDb
      (melspectrogram K (fitAudio (512 * 512) audio)))).length = 513 ∧
    fitFrames 512 (transposeMat (powerToDb K.toDb
        (melspectrogram K (fitAudio (512 * 512) audio)))) =
      (transposeMat (powerToDb K.toDb
        (melspectrogram K (fitAudio (512 * 512) audio)))).take 512 := by
  obtain ⟨h3, _⟩ := pipeline_shape K hK audio
  refine ⟨by rw [fitAudio_length], h3, ?_⟩
  unfold fitFrames
  rw [if_pos (by rw [h3]; norm_num)]

/-- C8 witness: the 513-frame count on the empty waveform under the
concrete kernel. -/
theorem spectrogram_513_frames_witness :
    (fitAudio (512 * 512) ([] : List ℚ)).length = 262144 ∧
    (transposeMat (powerToDb K0.toDb
      (melspectrogram K0 (fitAudio (512 * 512) ([] : List ℚ))))).length = 513 ∧
    fitFrames 512 (transposeMat (powerToDb K0.toDb
        (melspectrogram K0 (fitAudio (512 * 512) ([] : List ℚ))))) =
      (transposeMat (powerToDb K0.toDb
        (melspectrogram K0 (fitAudio (512 * 512) ([] : List ℚ))))).take 512 :=
  spectrogram_513_frames K0 (fun fr => by simp [K0]) []

/-- C10: `prepare_dataset` raises `ValueError` exactly when no row's
audio loads successfully, and otherwise returns a dataset with one item
per successfully loaded row. -/
theorem prepare_dataset_spec (env : ProcEnv) (df : List Row) (dir : String) :
    (prepare_dataset env df dir = Except.error "No data was successfully processed" ↔
      df.countP (fun r => (load_audio env.toAudioEnv r.audioPath dir).isSome) = 0) ∧
    (∀ ds, prepare_dataset env df dir = Except.ok ds →
      ds.length =
        df.countP (fun r => (load_audio env.toAudioEnv r.audioPath dir).isSome)) := by
  have hlen := processedData_length env dir df
  have hpd : prepare_dataset env df dir =
      if (processedData env dir df).isEmpty then
        Except.error "No data was successfully processed"
      else Except.ok (processedData env dir df) := rfl
  rcases Bool.eq_false_or_eq_true (processedData env dir df).isEmpty with hp | hp
  · have h0 : (processedData env dir df).length = 0 := by
      rw [List.isEmpty_iff] at hp
      rw [hp]
      rfl
    rw [hp] at hpd
    simp only [if_true] at hpd
    constructor
    · rw [hpd]
      constructor
      · intro _
        rw [← hlen]
        exact h0
      · intro _
        rfl
    · intro ds hds
      rw [hpd] at hds
      exact Except.noConfusion hds
  · have h0 : (processedData env dir df).length ≠ 0 := by
      intro h
      rw [List.length_eq_zero] at h
      rw [h] at hp
      simp at hp
    rw [hp] at hpd
    simp only [Bool.false_eq_true, if_false] at hpd
    constructor
    · rw [hpd]
      constructor
      · intro h
        exact Except.noConfusion h
      · intro h
        exfalso
        apply h0
        rw [hlen]
        exact h
    · intro ds hds
      rw [hpd] at hds
      cases hds
      exact hlen

/-- The environment for the C10 witness: everything exists and loads to
the clip `[1]`. -/
def penv0 : ProcEnv :=
  { exists_ := fun _ => true, load := fun _ => some [1],
    tokenize := fun _ => ([2], [1]) }

/-- C10 witness: on a one-row dataframe whose audio loads, the result is
a one-item dataset and no error is raised. -/
theorem prepare_dataset_spec_witness :
    (prepare_dataset penv0 [Row.mk "a.wav" "hi"] "dataset" =
        Except.error "No data was successfully processed" ↔
      List.countP
        (fun r => (load_audio penv0.toAudioEnv r.audioPath "dataset").isSome)
        [Row.mk "a.wav" "hi"] = 0) ∧
    (∀ ds, prepare_dataset penv0 [Row.mk "a.wav" "hi"] "dataset" = Except.ok ds →
      ds.length =
        List.countP
          (fun r => (load_audio penv0.toAudioEnv r.audioPath "dataset").isSome)
          [Row.mk "a.wav" "hi"]) :=
  prepare_dataset_spec penv0 [Row.mk "a.wav" "hi"] "dataset"

end TrainSpeechT5
